import Mathlib

/-!
# Nullable byte sequences (`package null`, `bytes.go`)

A shallow embedding of the `Bytes` type of `bytes.go` and of its methods, followed by
theorems about them.

Modelling conventions.

* A Go `[]byte` is a `Slice`: either the nil slice or a non-nil slice with a list of
  elements.  Capacity and sharing of backing arrays are not represented.
* A method with a pointer receiver (`func (b *Bytes) M(...) error`) becomes a function
  from the receiver's state before the call to the pair of its state after the call and
  the returned error (`none` for Go's `nil` error).
* The two collaborators the file imports, `encoding/json` and `convert.ConvertAssign`,
  are parameters of the methods that call them.
-/

set_option linter.dupNamespace false

namespace Null

/-- One octet. -/
abbrev Byte := Fin 256

/-- A Go byte slice: `nil` is the nil slice, `mk l` a non-nil slice holding `l`. -/
inductive Slice where
  | nil : Slice
  | mk (elems : List Byte) : Slice
  deriving DecidableEq, Repr

/-- The elements of a slice; the nil slice has none. -/
def Slice.elems : Slice → List Byte
  | Slice.nil => []
  | Slice.mk l => l

/-- Go `len(s)`. -/
def Slice.len (s : Slice) : Nat := s.elems.length

/-- Go `s[0:0]`: the nil slice stays nil, a non-nil slice becomes non-nil and empty. -/
def Slice.reslice00 : Slice → Slice
  | Slice.nil => Slice.nil
  | Slice.mk _ => Slice.mk []

/-- Go `append(s, xs...)`: appending nothing returns `s` itself, otherwise the result is
a non-nil slice with the elements of `s` followed by `xs`. -/
def Slice.append (s : Slice) (xs : List Byte) : Slice :=
  match xs with
  | [] => s
  | x :: rest => Slice.mk (s.elems ++ x :: rest)

/-- Go `bytes.Equal`: equality of contents, a nil slice being equal to an empty one. -/
def bytesEqual (a b : Slice) : Bool := decide (a.elems = b.elems)

/-- A Go `error` value.  The type surfaces errors of exactly two origins: the JSON
decoder and the conversion utility; `detail` tells individual errors apart. -/
inductive GoError where
  | DecodeError (detail : Nat) : GoError
  | ConversionError (detail : Nat) : GoError
  deriving DecidableEq, Repr

/-- The part of `encoding/json` that `bytes.go` calls: `json.Marshal(v)` for a `[]byte`
value `v`, and `json.Unmarshal(data, &bv)` for a fresh nil `bv []byte`, whose result is
the value left in `bv`. -/
structure JSONLib where
  Marshal : Slice → Except GoError Slice
  Unmarshal : Slice → Except GoError Slice

/-- A value handed to `Scan` (Go `interface{}`): the untyped nil, a byte slice, a string,
or a value of any other dynamic type, identified by a tag. -/
inductive DriverValue where
  | null : DriverValue
  | bytes (s : Slice) : DriverValue
  | str (s : List Byte) : DriverValue
  | other (tag : Nat) : DriverValue
  deriving DecidableEq, Repr

/-- The signature of `convert.ConvertAssign(&dest, src)` for a `*[]byte` destination:
from the destination's content before the call and the source value to the destination's
content after the call and the returned error. -/
abbrev Converter := Slice → DriverValue → Slice × Option GoError

/-- The bytes of the JSON literal, `[]byte("null")`. -/
def NullBytes : Slice := Slice.mk [110, 117, 108, 108]

/-- A nullable `[]byte`. -/
structure Bytes where
  Bytes : Slice
  Valid : Bool
  set : Bool
  deriving DecidableEq, Repr

/-- `NewBytes` creates a new Bytes. -/
def NewBytes (b : Slice) (valid set : Bool) : Bytes :=
  { Bytes := b, Valid := valid, set := set }

/-- `BytesFrom` creates a new Bytes that will be invalid if nil. -/
def BytesFrom (b : Slice) : Bytes :=
  NewBytes b (decide (b ≠ Slice.nil)) true

/-- `BytesFromPtr` creates a new Bytes that will be invalid if the pointer is nil. -/
def BytesFromPtr (b : Option Slice) : Bytes :=
  match b with
  | none => NewBytes Slice.nil false true
  | some s => NewBytes s true true

/-- `IsSet` returns the set flag. -/
def IsSet (b : Bytes) : Bool := b.set

/-- `UnmarshalJSON` implements json.Unmarshaler. -/
def UnmarshalJSON (J : JSONLib) (b : Bytes) (data : Slice) : Bytes × Option GoError :=
  let b1 : Bytes := { b with set := true }
  if bytesEqual data NullBytes then
    ({ b1 with Valid := false, Bytes := Slice.nil }, none)
  else
    match J.Unmarshal data with
    | Except.error err => (b1, some err)
    | Except.ok bv => ({ b1 with Bytes := bv, Valid := true }, none)

/-- `UnmarshalText` implements encoding.TextUnmarshaler. -/
def UnmarshalText (b : Bytes) (text : Slice) : Bytes × Option GoError :=
  let b1 : Bytes := { b with set := true }
  if text.len = 0 then
    ({ b1 with Bytes := Slice.nil, Valid := false }, none)
  else
    ({ b1 with Bytes := (b1.Bytes.reslice00).append text.elems, Valid := true }, none)

/-- `MarshalJSON` implements json.Marshaler. -/
def MarshalJSON (J : JSONLib) (b : Bytes) : Except GoError Slice :=
  if b.Bytes.len = 0 then
    Except.ok NullBytes
  else
    J.Marshal b.Bytes

/-- `MarshalText` implements encoding.TextMarshaler. -/
def MarshalText (b : Bytes) : Except GoError Slice :=
  if !b.Valid then
    Except.ok Slice.nil
  else
    Except.ok b.Bytes

/-- `SetValid` changes this Bytes's value and also sets it to be non-null. -/
def SetValid (b : Bytes) (n : Slice) : Bytes :=
  { b with Bytes := n, Valid := true, set := true }

/-- `Ptr` returns a pointer to this Bytes's value, or a nil pointer if this Bytes is
null. -/
def Ptr (b : Bytes) : Option Slice :=
  if !b.Valid then none else some b.Bytes

/-- `IsZero` returns `!b.Valid`.  The source comment reads "returns true for null or
zero Bytes's"; the body tests Valid only. -/
def IsZero (b : Bytes) : Bool := !b.Valid

/-- `Scan` implements the Scanner interface. -/
def Scan (ConvertAssign : Converter) (b : Bytes) (value : DriverValue) :
    Bytes × Option GoError :=
  if value = DriverValue.null then
    ({ b with Bytes := Slice.nil, Valid := false, set := false }, none)
  else
    let b1 : Bytes := { b with Valid := true, set := true }
    let r := ConvertAssign b1.Bytes value
    ({ b1 with Bytes := r.1 }, r.2)

/-- `Value` implements the driver Valuer interface. -/
def Value (b : Bytes) : DriverValue × Option GoError :=
  if !b.Valid then
    (DriverValue.null, none)
  else
    (DriverValue.bytes b.Bytes, none)

/-- Go `byte(n % 256)` for an `int64` `n`: the remainder truncated toward zero, then the
conversion to `byte`, which keeps the low eight bits. -/
def byteOfRem (n : Int) : Byte :=
  ⟨((Int.tmod n 256) % 256).toNat, by omega⟩

/-- `Randomize` for sqlboiler.  The generator `nextInt func() int64` is a function from
its hidden state to the value returned and the state after the call; the result carries
the generator's state after `Randomize`. -/
def Randomize {G : Type} (b : Bytes) (nextInt : G → Int × G) (g : G)
    (_fieldType : String) (shouldBeNull : Bool) : Bytes × G :=
  if shouldBeNull then
    ({ b with Bytes := Slice.nil, Valid := false }, g)
  else
    let r := nextInt g
    ({ b with Bytes := Slice.mk [byteOfRem r.1], Valid := true }, r.2)

/-! ## A reference instance of the JSON collaborator

`encoding/json` writes a non-nil `[]byte` as a JSON string holding its standard padded
base64 form, and a nil one as `null`.  `base64JSON` implements that encoder, and a
decoder for the tokens the encoder can produce: optional JSON whitespace around either
the literal `null` or a string of base64 text without escapes.  It rejects every other
token, so it covers a fragment of what `json.Unmarshal` accepts (which also reads escaped
strings and arrays of numbers).  The methods above never depend on it; it shows that the
laws assumed of the collaborator can be met and serves the closed examples. -/

/-- The character of the standard base64 alphabet
`ABCDEFGHIJKLMNOPQRSTUVWXYZabcdefghijklmnopqrstuvwxyz0123456789+/` at index `i mod 64`. -/
def b64Char (i : Nat) : Byte :=
  let j := i % 64
  if j < 26 then ⟨65 + j, by omega⟩
  else if j < 52 then ⟨71 + j, by omega⟩
  else if j < 62 then ⟨j - 4, by omega⟩
  else if j = 62 then 43
  else 47

/-- The index of a character in the standard base64 alphabet, if it belongs to it. -/
def b64Index (c : Byte) : Option Nat :=
  if 65 ≤ c.val ∧ c.val ≤ 90 then some (c.val - 65)
  else if 97 ≤ c.val ∧ c.val ≤ 122 then some (c.val - 71)
  else if 48 ≤ c.val ∧ c.val ≤ 57 then some (c.val + 4)
  else if c.val = 43 then some 62
  else if c.val = 47 then some 63
  else none

/-- The padding character `=`. -/
def b64Pad : Byte := 61

/-- Standard padded base64: three octets give four characters; a final group of one or
two octets is padded with `=`. -/
def b64Encode : List Byte → List Byte
  | [] => []
  | [a] =>
    let val := a.val * 65536
    [b64Char (val / 262144), b64Char (val / 4096), b64Pad, b64Pad]
  | [a, b] =>
    let val := a.val * 65536 + b.val * 256
    [b64Char (val / 262144), b64Char (val / 4096), b64Char (val / 64), b64Pad]
  | a :: b :: c :: rest =>
    let val := a.val * 65536 + b.val * 256 + c.val
    b64Char (val / 262144) :: b64Char (val / 4096) :: b64Char (val / 64) :: b64Char val
      :: b64Encode rest

/-- The inverse of `b64Encode`: groups of four characters, padding only in the last
group, any character outside the alphabet rejected. -/
def b64Decode : List Byte → Option (List Byte)
  | [] => some []
  | c0 :: c1 :: c2 :: c3 :: rest =>
    match b64Index c0, b64Index c1 with
    | some i0, some i1 =>
      if c2 = b64Pad ∧ c3 = b64Pad ∧ rest = [] then
        some [⟨(i0 * 4 + i1 / 16) % 256, by omega⟩]
      else
        match b64Index c2 with
        | some i2 =>
          if c3 = b64Pad ∧ rest = [] then
            some [⟨(i0 * 4 + i1 / 16) % 256, by omega⟩,
              ⟨(i1 * 16 + i2 / 4) % 256, by omega⟩]
          else
            match b64Index c3, b64Decode rest with
            | some i3, some tail =>
              some (⟨(i0 * 4 + i1 / 16) % 256, by omega⟩
                :: ⟨(i1 * 16 + i2 / 4) % 256, by omega⟩
                :: ⟨(i2 * 64 + i3) % 256, by omega⟩ :: tail)
            | _, _ => none
        | none => none
    | _, _ => none
  | _ => none

/-- JSON insignificant whitespace: space, tab, line feed, carriage return. -/
def isJSONSpace (c : Byte) : Bool :=
  decide (c = 32 ∨ c = 9 ∨ c = 10 ∨ c = 13)

/-- Strips JSON whitespace at both ends. -/
def trimJSONSpace (l : List Byte) : List Byte :=
  ((l.dropWhile isJSONSpace).reverse.dropWhile isJSONSpace).reverse

/-- The double quote `"`. -/
def quoteByte : Byte := 34

/-- The encoder of the reference instance: `null` for the nil slice, the quoted base64
text otherwise. -/
def b64Marshal : Slice → Except GoError Slice
  | Slice.nil => Except.ok NullBytes
  | Slice.mk l => Except.ok (Slice.mk (quoteByte :: (b64Encode l ++ [quoteByte])))

/-- The decoder of the reference instance.  Errors: 0 for an input that ends early (empty, or a
string left open), 1 for a token that is neither `null` nor a string, 2 for a string that
is not base64 text. -/
def b64Unmarshal (data : Slice) : Except GoError Slice :=
  let body := trimJSONSpace data.elems
  if body = NullBytes.elems then Except.ok Slice.nil
  else
    match body with
    | [] => Except.error (GoError.DecodeError 0)
    | c :: rest =>
      if c = quoteByte then
        match rest.reverse with
        | [] => Except.error (GoError.DecodeError 0)
        | d :: innerRev =>
          if d = quoteByte then
            match b64Decode innerRev.reverse with
            | some x => Except.ok (Slice.mk x)
            | none => Except.error (GoError.DecodeError 2)
          else Except.error (GoError.DecodeError 0)
      else Except.error (GoError.DecodeError 1)

/-- The reference instance of the JSON collaborator. -/
def base64JSON : JSONLib :=
  { Marshal := b64Marshal, Unmarshal := b64Unmarshal }

/-- The law the round trip needs of the JSON collaborator: a non-empty byte slice is
encoded without error, its encoding is not the literal `null`, and decoding the encoding
gives the slice back. -/
def JSONLib.RoundTrips (J : JSONLib) : Prop :=
  ∀ x : List Byte, x ≠ [] →
    ∃ out, J.Marshal (Slice.mk x) = Except.ok out ∧ bytesEqual out NullBytes = false ∧
      J.Unmarshal out = Except.ok (Slice.mk x)

/-! ## A reference instance of the conversion collaborator -/

/-- Modelled from the spec: the conversion utility `convert.ConvertAssign`, of
package `github.com/razor-1/null/v9/convert`, is not among the sources.  The spec (4.4,
7) has it assign a native byte sequence or a string into the byte-sequence target, and
fail with a ConversionError, the target unchanged, when the value's type cannot be
coerced; here every value of another dynamic type counts as not coercible, the error
carrying its tag. -/
def convertAssignRef : Converter := fun dest src =>
  match src with
  | DriverValue.null => (Slice.nil, none)
  | DriverValue.bytes s => (s, none)
  | DriverValue.str s => (Slice.mk s, none)
  | DriverValue.other tag => (dest, some (GoError.ConversionError tag))

/-! ## Values reachable through the API -/

/-- The zero value `Bytes{}` of the type. -/
def zeroBytes : Bytes := { Bytes := Slice.nil, Valid := false, set := false }

/-- An invalid value carries no payload: Valid = false implies `len(Bytes) = 0`. -/
def NoPayloadWhenInvalid (b : Bytes) : Prop :=
  b.Valid = false → b.Bytes.len = 0

/-- The values that can be built from the zero value, `BytesFrom` and `BytesFromPtr`
by the mutating methods, with any collaborators and any arguments; `NewBytes` and
writes to the fields are left out. -/
inductive Reachable : Bytes → Prop where
  | zero : Reachable zeroBytes
  | bytesFrom (x : Slice) : Reachable (BytesFrom x)
  | bytesFromPtr (p : Option Slice) : Reachable (BytesFromPtr p)
  | unmarshalJSON (J : JSONLib) (b : Bytes) (data : Slice) :
      Reachable b → Reachable (UnmarshalJSON J b data).1
  | unmarshalText (b : Bytes) (text : Slice) :
      Reachable b → Reachable (UnmarshalText b text).1
  | setValid (b : Bytes) (n : Slice) : Reachable b → Reachable (SetValid b n)
  | scan (conv : Converter) (b : Bytes) (value : DriverValue) :
      Reachable b → Reachable (Scan conv b value).1
  | randomize (G : Type) (nextInt : G → Int × G) (g : G) (fieldType : String)
      (shouldBeNull : Bool) (b : Bytes) :
      Reachable b → Reachable (Randomize b nextInt g fieldType shouldBeNull).1

/-! ## Lemmas on the reference codec -/

theorem b64Index_b64Char (i : Nat) : b64Index (b64Char i) = some (i % 64) := by
  have h : ∀ j : Fin 64, b64Index (b64Char j.val) = some j.val := by decide
  have := h ⟨i % 64, Nat.mod_lt _ (by decide)⟩
  simpa [b64Char] using this

theorem b64Char_ne_pad (i : Nat) : b64Char i ≠ b64Pad := by
  have h : ∀ j : Fin 64, b64Char j.val ≠ b64Pad := by decide
  have := h ⟨i % 64, Nat.mod_lt _ (by decide)⟩
  simpa [b64Char] using this

theorem b64Decode_b64Encode (x : List Byte) : b64Decode (b64Encode x) = some x := by
  induction x using b64Encode.induct with
  | case1 => rfl
  | case2 a =>
    simp only [b64Encode, b64Decode, b64Index_b64Char, true_and, and_self, if_true]
    congr 2
    apply Fin.ext
    have := a.isLt
    simp only
    omega
  | case3 a b =>
    simp only [b64Encode, b64Decode, b64Index_b64Char, b64Char_ne_pad, false_and,
      true_and, and_self, if_true, if_false]
    have ha := a.isLt
    have hb := b.isLt
    congr 2
    · apply Fin.ext; simp only; omega
    · congr 1; apply Fin.ext; simp only; omega
  | case4 a b c rest ih =>
    simp only [b64Encode, b64Decode, b64Index_b64Char, b64Char_ne_pad, false_and,
      true_and, and_self, if_true, if_false, ih]
    have ha := a.isLt
    have hb := b.isLt
    have hc := c.isLt
    congr 2
    · apply Fin.ext; simp only; omega
    · congr 1
      · apply Fin.ext; simp only; omega
      · congr 1; apply Fin.ext; simp only; omega


theorem b64Marshal_ne_null (x : List Byte) :
    bytesEqual (Slice.mk (quoteByte :: (b64Encode x ++ [quoteByte]))) NullBytes = false := by
  simp [bytesEqual, Slice.elems, NullBytes, quoteByte]

theorem trimJSONSpace_quoted (l : List Byte) :
    trimJSONSpace (quoteByte :: (l ++ [quoteByte])) = quoteByte :: (l ++ [quoteByte]) := by
  have hq : isJSONSpace quoteByte = false := by decide
  simp [trimJSONSpace, List.dropWhile, hq]

theorem b64Unmarshal_quoted (x : List Byte) :
    b64Unmarshal (Slice.mk (quoteByte :: (b64Encode x ++ [quoteByte]))) =
      Except.ok (Slice.mk x) := by
  have hne : quoteByte :: (b64Encode x ++ [quoteByte]) ≠ NullBytes.elems := by
    simp [NullBytes, Slice.elems, quoteByte]
  have hel : (Slice.mk (quoteByte :: (b64Encode x ++ [quoteByte]))).elems =
      quoteByte :: (b64Encode x ++ [quoteByte]) := rfl
  unfold b64Unmarshal
  rw [hel, trimJSONSpace_quoted]
  simp only [if_neg hne]
  simp [b64Decode_b64Encode]

theorem base64JSON_roundTrips : base64JSON.RoundTrips := by
  intro x _
  exact ⟨_, rfl, b64Marshal_ne_null x, b64Unmarshal_quoted x⟩


/-! ## Lemmas on the embedding -/

theorem bytesEqual_NullBytes_iff (data : Slice) :
    bytesEqual data NullBytes = true ↔ data = NullBytes := by
  cases data with
  | nil => simp [bytesEqual, Slice.elems, NullBytes]
  | mk l => simp [bytesEqual, Slice.elems, NullBytes]

theorem byteOfRem_val (n : Int) : ((byteOfRem n).val : Int) = n % 256 := by
  have h := Int.tmod_add_tdiv n 256
  simp only [byteOfRem]
  omega

theorem noPayload_unmarshalJSON (J : JSONLib) (b : Bytes) (data : Slice)
    (hb : NoPayloadWhenInvalid b) : NoPayloadWhenInvalid (UnmarshalJSON J b data).1 := by
  unfold UnmarshalJSON
  cases bytesEqual data NullBytes
  · cases J.Unmarshal data with
    | error err => exact hb
    | ok bv => intro h; simp at h
  · intro _; rfl

theorem noPayload_unmarshalText (b : Bytes) (text : Slice) :
    NoPayloadWhenInvalid (UnmarshalText b text).1 := by
  unfold UnmarshalText
  by_cases h : text.len = 0
  · simp only [h, if_true]; intro _; rfl
  · simp only [h, if_false]; intro h2; simp at h2

theorem noPayload_scan (conv : Converter) (b : Bytes) (v : DriverValue) :
    NoPayloadWhenInvalid (Scan conv b v).1 := by
  unfold Scan
  by_cases h : v = DriverValue.null
  · simp only [h, if_true]; intro _; rfl
  · simp only [h, if_false]; intro h2; simp at h2

theorem noPayload_randomize {G : Type} (b : Bytes) (nextInt : G → Int × G) (g : G)
    (fieldType : String) (shouldBeNull : Bool) :
    NoPayloadWhenInvalid (Randomize b nextInt g fieldType shouldBeNull).1 := by
  cases shouldBeNull
  · intro h2; simp [Randomize] at h2
  · intro _; rfl

theorem noPayload_of_reachable (b : Bytes) (h : Reachable b) : NoPayloadWhenInvalid b := by
  induction h with
  | zero => intro _; rfl
  | bytesFrom x =>
    cases x with
    | nil => intro _; rfl
    | mk l => intro h2; simp [BytesFrom, NewBytes] at h2
  | bytesFromPtr p =>
    cases p with
    | none => intro _; rfl
    | some s => intro h2; simp [BytesFromPtr, NewBytes] at h2
  | unmarshalJSON J b data _ ih => exact noPayload_unmarshalJSON J b data ih
  | unmarshalText b text _ _ => exact noPayload_unmarshalText b text
  | setValid b n _ _ => intro h2; simp [SetValid] at h2
  | scan conv b v _ _ => exact noPayload_scan conv b v
  | randomize G nextInt g ft sbn b _ _ => exact noPayload_randomize b nextInt g ft sbn

/-! ## The JSON codec -/

/-- C1: JSON round trip.  For a JSON collaborator that round-trips non-empty byte
slices, every slice `x` and every prior state of the target: `MarshalJSON (BytesFrom x)`
returns some output without error and `UnmarshalJSON` of that output returns no error;
when `len x > 0` the output is not the literal `null` and the target ends with Valid =
true, set = true and Bytes = `x`; when `len x = 0` (nil or non-nil empty) the output is
the literal `null` and the target ends with Valid = false. -/
theorem C1_json_round_trip (J : JSONLib) (hJ : J.RoundTrips) (x : Slice) (prior : Bytes) :
    ∃ out, MarshalJSON J (BytesFrom x) = Except.ok out ∧
      (UnmarshalJSON J prior out).2 = none ∧
      (0 < x.len → bytesEqual out NullBytes = false ∧
        UnmarshalJSON J prior out = ({ Bytes := x, Valid := true, set := true }, none)) ∧
      (x.len = 0 → out = NullBytes ∧
        UnmarshalJSON J prior out =
          ({ Bytes := Slice.nil, Valid := false, set := true }, none)) := by
  cases x with
  | nil =>
    refine ⟨NullBytes, rfl, rfl, ?_, ?_⟩
    · intro h; exact absurd h (by decide)
    · intro _; exact ⟨rfl, rfl⟩
  | mk l =>
    cases l with
    | nil =>
      refine ⟨NullBytes, rfl, rfl, ?_, ?_⟩
      · intro h; exact absurd h (by decide)
      · intro _; exact ⟨rfl, rfl⟩
    | cons a t =>
      obtain ⟨out, hm, hn, hu⟩ := hJ (a :: t) (List.cons_ne_nil a t)
      have hlen : ¬ (Slice.mk (a :: t)).len = 0 := by simp [Slice.len, Slice.elems]
      have hdec : UnmarshalJSON J prior out =
          ({ Bytes := Slice.mk (a :: t), Valid := true, set := true }, none) := by
        simp [UnmarshalJSON, hn, hu]
      refine ⟨out, ?_, ?_, ?_, ?_⟩
      · simp only [MarshalJSON, BytesFrom, NewBytes, if_neg hlen, hm]
      · rw [hdec]
      · intro _; exact ⟨hn, hdec⟩
      · intro h; exact absurd h hlen

/-- The round trip of C1 through the reference instance: the bytes 1, 2, 3 are encoded
as the six bytes of `"AQID"` and decoded back over a target that held other bytes. -/
theorem C1_json_round_trip_witness :
    base64JSON.RoundTrips ∧
    MarshalJSON base64JSON (BytesFrom (Slice.mk [1, 2, 3])) =
      Except.ok (Slice.mk [34, 65, 81, 73, 68, 34]) ∧
    ∃ out, MarshalJSON base64JSON (BytesFrom (Slice.mk [1, 2, 3])) = Except.ok out ∧
      (UnmarshalJSON base64JSON { Bytes := Slice.mk [9, 9], Valid := false, set := false }
        out).2 = none ∧
      (0 < (Slice.mk [1, 2, 3]).len → bytesEqual out NullBytes = false ∧
        UnmarshalJSON base64JSON { Bytes := Slice.mk [9, 9], Valid := false, set := false }
          out = ({ Bytes := Slice.mk [1, 2, 3], Valid := true, set := true }, none)) ∧
      ((Slice.mk [1, 2, 3]).len = 0 → out = NullBytes ∧
        UnmarshalJSON base64JSON { Bytes := Slice.mk [9, 9], Valid := false, set := false }
          out = ({ Bytes := Slice.nil, Valid := false, set := true }, none)) :=
  ⟨base64JSON_roundTrips, rfl,
    C1_json_round_trip base64JSON base64JSON_roundTrips (Slice.mk [1, 2, 3])
      { Bytes := Slice.mk [9, 9], Valid := false, set := false }⟩

/-- C2: MarshalJSON is decided by the payload length alone.  For every JSON collaborator
and every Bytes `b`: with `len b.Bytes = 0` the result is exactly `null` with no error;
otherwise it is what `json.Marshal` returns for `b.Bytes`, so it is free of error as
soon as `json.Marshal` is, and for the reference encoder it is the quoted base64 text
with no error; Valid and set play no part; and `BytesFrom` of a non-nil empty slice
(valid) and of nil (invalid) both encode as `null`. -/
theorem C2_marshalJSON_by_length (J : JSONLib) (b : Bytes) :
    (b.Bytes.len = 0 → MarshalJSON J b = Except.ok NullBytes) ∧
    (b.Bytes.len ≠ 0 → MarshalJSON J b = J.Marshal b.Bytes) ∧
    ((∃ enc, J.Marshal b.Bytes = Except.ok enc) → ∃ out, MarshalJSON J b = Except.ok out) ∧
    (b.Bytes.len ≠ 0 → MarshalJSON base64JSON b =
      Except.ok (Slice.mk (quoteByte :: (b64Encode b.Bytes.elems ++ [quoteByte])))) ∧
    (∀ valid set : Bool, MarshalJSON J (NewBytes b.Bytes valid set) = MarshalJSON J b) ∧
    (BytesFrom (Slice.mk [])).Valid = true ∧
    MarshalJSON J (BytesFrom (Slice.mk [])) = Except.ok NullBytes ∧
    (BytesFrom Slice.nil).Valid = false ∧
    MarshalJSON J (BytesFrom Slice.nil) = Except.ok NullBytes := by
  refine ⟨?_, ?_, ?_, ?_, ?_, rfl, rfl, rfl, rfl⟩
  · intro h; simp [MarshalJSON, h]
  · intro h; simp [MarshalJSON, h]
  · intro h
    by_cases h0 : b.Bytes.len = 0
    · exact ⟨NullBytes, by simp [MarshalJSON, h0]⟩
    · obtain ⟨enc, henc⟩ := h
      exact ⟨enc, by simp [MarshalJSON, h0, henc]⟩
  · intro h
    obtain ⟨p, v, s⟩ := b
    cases p with
    | nil => exact absurd rfl h
    | mk l =>
      unfold MarshalJSON
      rw [if_neg h]
      rfl
  · intro valid set; rfl

/-- C2 at concrete values: a one-byte payload is encoded as `"AQ=="` whatever the flags,
an empty one as `null`. -/
theorem C2_marshalJSON_by_length_witness :
    (Slice.mk [1]).len ≠ 0 ∧
    MarshalJSON base64JSON (NewBytes (Slice.mk [1]) true false) =
      Except.ok (Slice.mk [34, 65, 81, 61, 61, 34]) ∧
    MarshalJSON base64JSON (NewBytes (Slice.mk [1]) false true) =
      MarshalJSON base64JSON (NewBytes (Slice.mk [1]) true false) ∧
    (Slice.mk []).len = 0 ∧
    MarshalJSON base64JSON (NewBytes (Slice.mk []) true true) = Except.ok NullBytes :=
  ⟨by decide,
    (C2_marshalJSON_by_length base64JSON (NewBytes (Slice.mk [1]) true false)).2.2.2.1
      (by decide),
    (C2_marshalJSON_by_length base64JSON (NewBytes (Slice.mk [1]) true false)).2.2.2.2.1
      false true,
    by decide,
    (C2_marshalJSON_by_length base64JSON (NewBytes (Slice.mk []) true true)).1 (by decide)⟩

/-- C3, the claim fails: a value with Valid = false built by `NewBytes` around the
one-byte payload 1 is encoded as `"AQ=="`, not as `null`. -/
theorem C3_counterexample :
    (NewBytes (Slice.mk [1]) false true).Valid = false ∧
    MarshalJSON base64JSON (NewBytes (Slice.mk [1]) false true) =
      Except.ok (Slice.mk [34, 65, 81, 61, 61, 34]) ∧
    bytesEqual (Slice.mk [34, 65, 81, 61, 61, 34]) NullBytes = false :=
  ⟨rfl, rfl, by decide⟩

/-- C3 as amended: for every Bytes `b` with Valid = false, MarshalJSON emits the null
literal when the payload is empty, which is the case of every invalid value that
`BytesFrom` or `BytesFromPtr` builds; when the payload is not empty the result is the
JSON encoding of the payload, because the encoder looks at the length only. -/
theorem C3_invalid_marshalJSON (J : JSONLib) (b : Bytes) (hv : b.Valid = false) :
    (b.Bytes.len = 0 → MarshalJSON J b = Except.ok NullBytes) ∧
    (b.Bytes.len ≠ 0 → MarshalJSON J b = J.Marshal b.Bytes) ∧
    (∀ x : Slice, b = BytesFrom x → MarshalJSON J b = Except.ok NullBytes) ∧
    (∀ p : Option Slice, b = BytesFromPtr p → MarshalJSON J b = Except.ok NullBytes) := by
  refine ⟨?_, ?_, ?_, ?_⟩
  · intro h; simp [MarshalJSON, h]
  · intro h; simp [MarshalJSON, h]
  · intro x hx
    subst hx
    cases x with
    | nil => rfl
    | mk l => exact absurd hv (by simp [BytesFrom, NewBytes])
  · intro p hp
    subst hp
    cases p with
    | none => rfl
    | some s => exact absurd hv (by simp [BytesFromPtr, NewBytes])

/-- C3 as amended, at concrete values: the invalid value `BytesFrom nil` is encoded as
`null`, and so is an invalid value with an empty non-nil payload. -/
theorem C3_invalid_marshalJSON_witness :
    (BytesFrom Slice.nil).Valid = false ∧
    MarshalJSON base64JSON (BytesFrom Slice.nil) = Except.ok NullBytes ∧
    (NewBytes (Slice.mk []) false false).Valid = false ∧
    MarshalJSON base64JSON (NewBytes (Slice.mk []) false false) = Except.ok NullBytes :=
  ⟨rfl, (C3_invalid_marshalJSON base64JSON (BytesFrom Slice.nil) rfl).2.2.1 Slice.nil rfl,
    rfl,
    (C3_invalid_marshalJSON base64JSON (NewBytes (Slice.mk []) false false) rfl).1
      (by decide)⟩

/-- C4: for every JSON collaborator and every prior state of `b`, UnmarshalJSON on the
literal `null` returns no error and leaves Bytes nil, Valid = false and set = true. -/
theorem C4_unmarshalJSON_null (J : JSONLib) (b : Bytes) :
    UnmarshalJSON J b NullBytes =
      ({ Bytes := Slice.nil, Valid := false, set := true }, none) := by
  rfl

/-- C5: for every JSON collaborator, every prior state of `b` and every input that is
not the literal `null`: when the decoder rejects the input with an error, UnmarshalJSON
returns that very error and leaves set = true with Valid and Bytes as they were; when
the decoder accepts it, UnmarshalJSON returns no error and leaves Bytes = the decoded
bytes, Valid = true, set = true. -/
theorem C5_unmarshalJSON_decoder (J : JSONLib) (b : Bytes) (data : Slice)
    (hdata : bytesEqual data NullBytes = false) :
    (∀ err, J.Unmarshal data = Except.error err →
      UnmarshalJSON J b data =
        ({ Bytes := b.Bytes, Valid := b.Valid, set := true }, some err)) ∧
    (∀ bv, J.Unmarshal data = Except.ok bv →
      UnmarshalJSON J b data = ({ Bytes := bv, Valid := true, set := true }, none)) := by
  constructor
  · intro err h
    simp [UnmarshalJSON, hdata, h]
  · intro bv h
    simp [UnmarshalJSON, hdata, h]

/-- C5 through the reference decoder: the string `"A"`, which is not base64 text, is
rejected with error 2 and a target holding the byte 9 keeps it, invalid, with set =
true; the string `"AQID"` is accepted and overwrites the target. -/
theorem C5_unmarshalJSON_decoder_witness :
    bytesEqual (Slice.mk [34, 65, 34]) NullBytes = false ∧
    base64JSON.Unmarshal (Slice.mk [34, 65, 34]) =
      Except.error (GoError.DecodeError 2) ∧
    UnmarshalJSON base64JSON { Bytes := Slice.mk [9], Valid := false, set := false }
        (Slice.mk [34, 65, 34]) =
      ({ Bytes := Slice.mk [9], Valid := false, set := true },
        some (GoError.DecodeError 2)) ∧
    bytesEqual (Slice.mk [34, 65, 81, 73, 68, 34]) NullBytes = false ∧
    base64JSON.Unmarshal (Slice.mk [34, 65, 81, 73, 68, 34]) =
      Except.ok (Slice.mk [1, 2, 3]) ∧
    UnmarshalJSON base64JSON { Bytes := Slice.mk [9], Valid := false, set := false }
        (Slice.mk [34, 65, 81, 73, 68, 34]) =
      ({ Bytes := Slice.mk [1, 2, 3], Valid := true, set := true }, none) :=
  ⟨by decide, rfl,
    (C5_unmarshalJSON_decoder base64JSON
      { Bytes := Slice.mk [9], Valid := false, set := false } (Slice.mk [34, 65, 34])
      (by decide)).1 (GoError.DecodeError 2) rfl,
    by decide, rfl,
    (C5_unmarshalJSON_decoder base64JSON
      { Bytes := Slice.mk [9], Valid := false, set := false }
      (Slice.mk [34, 65, 81, 73, 68, 34]) (by decide)).2 (Slice.mk [1, 2, 3]) rfl⟩

/-! ## The database binding -/

/-- C6: for every conversion utility and every prior state of `b`, Scan of the database
null (nil) returns no error and leaves Bytes nil, Valid = false and set = false, so
IsSet is false afterwards whatever it was before. -/
theorem C6_scan_null (conv : Converter) (b : Bytes) :
    Scan conv b DriverValue.null =
      ({ Bytes := Slice.nil, Valid := false, set := false }, none) ∧
    IsSet (Scan conv b DriverValue.null).1 = false := by
  exact ⟨rfl, rfl⟩

/-- C7: for every conversion utility, every prior state of `b` and every non-nil driver
value, Scan leaves Valid = true and set = true, hands the utility the payload held
before the call as its destination, stores what the utility leaves there and returns
exactly the utility's error; when the utility fails with an error and leaves its
destination as it was, Scan returns that error with Valid = true, set = true and Bytes
equal to its value before the call. -/
theorem C7_scan_non_null (conv : Converter) (b : Bytes) (v : DriverValue)
    (hv : v ≠ DriverValue.null) :
    Scan conv b v =
      ({ Bytes := (conv b.Bytes v).1, Valid := true, set := true }, (conv b.Bytes v).2) ∧
    (∀ err, conv b.Bytes v = (b.Bytes, some err) →
      Scan conv b v = ({ Bytes := b.Bytes, Valid := true, set := true }, some err)) := by
  have h : Scan conv b v =
      ({ Bytes := (conv b.Bytes v).1, Valid := true, set := true },
        (conv b.Bytes v).2) := by
    simp [Scan, hv]
  refine ⟨h, ?_⟩
  intro err he
  rw [h, he]

/-- C7 with the reference utility: a value of a dynamic type that does not convert
(tag 7) makes Scan fail with the conversion error over a null target that held the
byte 9, which ends valid and set with the byte 9 still there; a string is stored. -/
theorem C7_scan_non_null_witness :
    DriverValue.other 7 ≠ DriverValue.null ∧
    Scan convertAssignRef { Bytes := Slice.mk [9], Valid := false, set := false }
        (DriverValue.other 7) =
      ({ Bytes := Slice.mk [9], Valid := true, set := true },
        some (GoError.ConversionError 7)) ∧
    Scan convertAssignRef { Bytes := Slice.mk [9], Valid := false, set := false }
        (DriverValue.str [104, 105]) =
      ({ Bytes := Slice.mk [104, 105], Valid := true, set := true }, none) :=
  ⟨by decide,
    (C7_scan_non_null convertAssignRef
      { Bytes := Slice.mk [9], Valid := false, set := false } (DriverValue.other 7)
      (by decide)).2 (GoError.ConversionError 7) rfl,
    (C7_scan_non_null convertAssignRef
      { Bytes := Slice.mk [9], Valid := false, set := false }
      (DriverValue.str [104, 105]) (by decide)).1⟩

/-- C8, the claim fails: after Scan of the database null over a value that was set,
IsSet returns false. -/
theorem C8_counterexample :
    IsSet { Bytes := Slice.mk [1], Valid := true, set := true } = true ∧
    IsSet (Scan convertAssignRef { Bytes := Slice.mk [1], Valid := true, set := true }
      DriverValue.null).1 = false :=
  ⟨rfl, rfl⟩

/-- C8 as amended: for every prior state and every input, IsSet returns true after
UnmarshalJSON (also when it fails) and after UnmarshalText; after Scan it returns true
exactly when the scanned value is not the database null (also when the conversion
fails), since Scan of nil clears the flag. -/
theorem C8_set_after_decode (J : JSONLib) (conv : Converter) (b : Bytes)
    (data text : Slice) (v : DriverValue) :
    IsSet (UnmarshalJSON J b data).1 = true ∧
    IsSet (UnmarshalText b text).1 = true ∧
    IsSet (Scan conv b v).1 = decide (v ≠ DriverValue.null) := by
  refine ⟨?_, ?_, ?_⟩
  · unfold UnmarshalJSON IsSet
    cases bytesEqual data NullBytes
    · cases J.Unmarshal data <;> rfl
    · rfl
  · unfold UnmarshalText IsSet
    by_cases h : text.len = 0
    · simp [h]
    · simp [h]
  · unfold Scan IsSet
    by_cases h : v = DriverValue.null
    · simp [h]
    · simp [h]

/-! ## The text codec -/

/-- C9: text round trip.  For every non-empty text `t` and every prior state of the
target, whatever payload it held, UnmarshalText returns no error and MarshalText of the
result returns exactly `t` with no error. -/
theorem C9_text_round_trip (b : Bytes) (t : Slice) (ht : 0 < t.len) :
    (UnmarshalText b t).2 = none ∧
    MarshalText (UnmarshalText b t).1 = Except.ok t := by
  cases t with
  | nil => exact absurd ht (by decide)
  | mk l =>
    cases l with
    | nil => exact absurd ht (by decide)
    | cons a r =>
      obtain ⟨p, v, s⟩ := b
      cases p <;> exact ⟨rfl, rfl⟩

/-- C9 at concrete values: the two-byte text `hi` comes back from a target that held
five bytes, and from one that held a nil payload. -/
theorem C9_text_round_trip_witness :
    0 < (Slice.mk [104, 105]).len ∧
    ((UnmarshalText { Bytes := Slice.mk [1, 2, 3, 4, 5], Valid := true, set := false }
        (Slice.mk [104, 105])).2 = none ∧
      MarshalText (UnmarshalText
        { Bytes := Slice.mk [1, 2, 3, 4, 5], Valid := true, set := false }
        (Slice.mk [104, 105])).1 = Except.ok (Slice.mk [104, 105])) ∧
    MarshalText (UnmarshalText { Bytes := Slice.nil, Valid := false, set := false }
      (Slice.mk [104, 105])).1 = Except.ok (Slice.mk [104, 105]) :=
  ⟨by decide,
    C9_text_round_trip { Bytes := Slice.mk [1, 2, 3, 4, 5], Valid := true, set := false }
      (Slice.mk [104, 105]) (by decide),
    rfl⟩

/-- C10: UnmarshalText is total.  For every prior state and every text it returns no
error and leaves set = true; an empty text (nil or not) leaves Bytes nil and Valid =
false; a non-empty text leaves Valid = true and Bytes a non-nil slice holding exactly
the bytes of the text, none of the prior payload. -/
theorem C10_unmarshalText_total (b : Bytes) (text : Slice) :
    (UnmarshalText b text).2 = none ∧
    (UnmarshalText b text).1.set = true ∧
    (text.len = 0 →
      (UnmarshalText b text).1 = { Bytes := Slice.nil, Valid := false, set := true }) ∧
    (text.len ≠ 0 →
      (UnmarshalText b text).1 =
        { Bytes := Slice.mk text.elems, Valid := true, set := true }) := by
  obtain ⟨p, v, s⟩ := b
  cases text with
  | nil => exact ⟨rfl, rfl, fun _ => rfl, fun h => absurd rfl h⟩
  | mk l =>
    cases l with
    | nil => exact ⟨rfl, rfl, fun _ => rfl, fun h => absurd rfl h⟩
    | cons a r =>
      cases p <;> exact ⟨rfl, rfl, fun h => absurd h (by simp [Slice.len, Slice.elems]),
        fun _ => rfl⟩

/-- C10 at concrete values: an empty non-nil text clears a valid target, and the
one-byte text `x` replaces a three-byte payload. -/
theorem C10_unmarshalText_total_witness :
    (Slice.mk []).len = 0 ∧
    (UnmarshalText { Bytes := Slice.mk [1, 2, 3], Valid := true, set := false }
      (Slice.mk [])).1 = { Bytes := Slice.nil, Valid := false, set := true } ∧
    (Slice.mk [120]).len ≠ 0 ∧
    (UnmarshalText { Bytes := Slice.mk [1, 2, 3], Valid := true, set := false }
      (Slice.mk [120])).1 = { Bytes := Slice.mk [120], Valid := true, set := true } :=
  ⟨by decide,
    (C10_unmarshalText_total { Bytes := Slice.mk [1, 2, 3], Valid := true, set := false }
      (Slice.mk [])).2.2.1 (by decide),
    by decide,
    (C10_unmarshalText_total { Bytes := Slice.mk [1, 2, 3], Valid := true, set := false }
      (Slice.mk [120])).2.2.2 (by decide)⟩

/-- C11: MarshalText never fails.  For every Bytes `b` with Valid = false it returns
the nil slice whatever the payload holds, for every `b` with Valid = true it returns
`b.Bytes` as it is, and the result is the same for either value of set. -/
theorem C11_marshalText (b : Bytes) :
    (∃ out, MarshalText b = Except.ok out) ∧
    (b.Valid = false → MarshalText b = Except.ok Slice.nil) ∧
    (b.Valid = true → MarshalText b = Except.ok b.Bytes) ∧
    (∀ set : Bool, MarshalText (NewBytes b.Bytes b.Valid set) = MarshalText b) := by
  obtain ⟨p, v, s⟩ := b
  cases v
  · exact ⟨⟨Slice.nil, rfl⟩, fun _ => rfl, fun h => by simp at h, fun _ => rfl⟩
  · exact ⟨⟨p, rfl⟩, fun h => by simp at h, fun _ => rfl, fun _ => rfl⟩

/-- C11 at concrete values: an invalid value holding the bytes 1, 2 gives the nil
slice, and a valid value holding a double quote, a backslash and a zero byte gives
them back unescaped. -/
theorem C11_marshalText_witness :
    (NewBytes (Slice.mk [1, 2]) false true).Valid = false ∧
    MarshalText (NewBytes (Slice.mk [1, 2]) false true) = Except.ok Slice.nil ∧
    (NewBytes (Slice.mk [34, 92, 0]) true false).Valid = true ∧
    MarshalText (NewBytes (Slice.mk [34, 92, 0]) true false) =
      Except.ok (Slice.mk [34, 92, 0]) :=
  ⟨rfl, (C11_marshalText (NewBytes (Slice.mk [1, 2]) false true)).2.1 rfl, rfl,
    (C11_marshalText (NewBytes (Slice.mk [34, 92, 0]) true false)).2.2.1 rfl⟩

/-- C12: Value never fails.  For every Bytes `b` with Valid = false it returns the
database null (nil) whatever the payload holds, for every `b` with Valid = true it
returns the payload `b.Bytes`, and the result is the same for either value of set. -/
theorem C12_value (b : Bytes) :
    (Value b).2 = none ∧
    (b.Valid = false → Value b = (DriverValue.null, none)) ∧
    (b.Valid = true → Value b = (DriverValue.bytes b.Bytes, none)) ∧
    (∀ set : Bool, Value (NewBytes b.Bytes b.Valid set) = Value b) := by
  obtain ⟨p, v, s⟩ := b
  cases v
  · exact ⟨rfl, fun _ => rfl, fun h => by simp at h, fun _ => rfl⟩
  · exact ⟨rfl, fun h => by simp at h, fun _ => rfl, fun _ => rfl⟩

/-- C12 at concrete values: an invalid value holding the byte 7 gives the database
null, a valid value holding an empty non-nil payload gives that payload. -/
theorem C12_value_witness :
    (NewBytes (Slice.mk [7]) false true).Valid = false ∧
    Value (NewBytes (Slice.mk [7]) false true) = (DriverValue.null, none) ∧
    (NewBytes (Slice.mk []) true true).Valid = true ∧
    Value (NewBytes (Slice.mk []) true true) = (DriverValue.bytes (Slice.mk []), none) :=
  ⟨rfl, (C12_value (NewBytes (Slice.mk [7]) false true)).2.1 rfl, rfl,
    (C12_value (NewBytes (Slice.mk []) true true)).2.2.1 rfl⟩

/-! ## Construction, mutation and accessors -/

/-- C13: for every byte slice `x`, `BytesFrom x` has Bytes = `x`, set = true, and
Valid = true exactly when `x` is not nil; a non-nil slice of length zero gives Valid =
true and nil gives Valid = false. -/
theorem C13_bytesFrom (x : Slice) :
    (BytesFrom x).Bytes = x ∧ (BytesFrom x).set = true ∧
    ((BytesFrom x).Valid = true ↔ x ≠ Slice.nil) ∧
    BytesFrom (Slice.mk []) = { Bytes := Slice.mk [], Valid := true, set := true } ∧
    BytesFrom Slice.nil = { Bytes := Slice.nil, Valid := false, set := true } := by
  refine ⟨rfl, rfl, ?_, rfl, rfl⟩
  simp [BytesFrom, NewBytes]

/-- C14: `BytesFromPtr` of a nil pointer gives Valid = false, set = true and a nil
payload; of a pointer to a slice `s` it gives Valid = true, set = true and the payload
`s`, for every `s`, the nil slice and a slice of length zero included. -/
theorem C14_bytesFromPtr (s : Slice) :
    BytesFromPtr none = { Bytes := Slice.nil, Valid := false, set := true } ∧
    BytesFromPtr (some s) = { Bytes := s, Valid := true, set := true } ∧
    BytesFromPtr (some Slice.nil) = { Bytes := Slice.nil, Valid := true, set := true } ∧
    BytesFromPtr (some (Slice.mk [])) =
      { Bytes := Slice.mk [], Valid := true, set := true } :=
  ⟨rfl, rfl, rfl, rfl⟩

/-- C15: for every prior state of `b` and every byte slice `n`, `SetValid n` leaves
Bytes = `n`, Valid = true and set = true, and MarshalText of the result returns exactly
`n` with no error; for `n` the bytes 1, 2, 3 it returns the bytes 1, 2, 3. -/
theorem C15_setValid (b : Bytes) (n : Slice) :
    SetValid b n = { Bytes := n, Valid := true, set := true } ∧
    MarshalText (SetValid b n) = Except.ok n ∧
    MarshalText (SetValid b (Slice.mk [1, 2, 3])) = Except.ok (Slice.mk [1, 2, 3]) :=
  ⟨rfl, rfl, rfl⟩

/-- C16: the null-ness accessors follow Valid alone.  For every Bytes `b`, IsZero is
true exactly when Valid = false and Ptr is the nil pointer exactly when Valid = false;
neither changes with set or with the payload, so a valid value with a payload of length
zero is not zero; and when Valid = true, Ptr points to a slice equal to `b.Bytes`. -/
theorem C16_isZero_ptr (b : Bytes) :
    (IsZero b = true ↔ b.Valid = false) ∧
    (Ptr b = none ↔ b.Valid = false) ∧
    (∀ (payload : Slice) (set : Bool),
      IsZero (NewBytes payload b.Valid set) = IsZero b ∧
      ((Ptr (NewBytes payload b.Valid set)).isNone = (Ptr b).isNone)) ∧
    IsZero (NewBytes (Slice.mk []) true false) = false ∧
    (b.Valid = true → Ptr b = some b.Bytes) := by
  obtain ⟨p, v, s⟩ := b
  cases v
  · refine ⟨by simp [IsZero], by simp [Ptr], fun _ _ => ⟨rfl, rfl⟩, rfl, ?_⟩
    intro h; simp at h
  · refine ⟨by simp [IsZero], by simp [Ptr], fun _ _ => ⟨rfl, rfl⟩, rfl, ?_⟩
    intro _; rfl

/-- C16 at a concrete value: Ptr of a valid value holding the byte 5 points to the
byte 5. -/
theorem C16_isZero_ptr_witness :
    (NewBytes (Slice.mk [5]) true false).Valid = true ∧
    Ptr (NewBytes (Slice.mk [5]) true false) = some (Slice.mk [5]) :=
  ⟨rfl, (C16_isZero_ptr (NewBytes (Slice.mk [5]) true false)).2.2.2.2 rfl⟩

/-- C17: Randomize.  For every prior state, generator and field type: with
shouldBeNull true the result has Bytes nil and Valid = false and the generator is left
in the state it had, so it was not called; with shouldBeNull false the result has
Valid = true and a payload of exactly one byte, the generator has been called once, and
the byte is the low eight bits of the value `n` it returned, that is `n mod 256` taken
in 0..255, also for a negative `n` (for `n = -1`, Go's `n % 256` is -1 and the byte is
255); in both cases set keeps its prior value and the result does not change with the
field type. -/
theorem C17_randomize {G : Type} (b : Bytes) (nextInt : G → Int × G) (g : G)
    (fieldType : String) :
    Randomize b nextInt g fieldType true =
      ({ Bytes := Slice.nil, Valid := false, set := b.set }, g) ∧
    Randomize b nextInt g fieldType false =
      ({ Bytes := Slice.mk [byteOfRem (nextInt g).1], Valid := true, set := b.set },
        (nextInt g).2) ∧
    ((byteOfRem (nextInt g).1).val : Int) = (nextInt g).1 % 256 ∧
    (0 ≤ (nextInt g).1 % 256 ∧ (nextInt g).1 % 256 < 256) ∧
    (Int.tmod (-1) 256 = -1 ∧ byteOfRem (-1) = 255 ∧ byteOfRem (-256) = 0 ∧
      byteOfRem 513 = 1) ∧
    (∀ (otherType : String) (shouldBeNull : Bool),
      Randomize b nextInt g otherType shouldBeNull =
        Randomize b nextInt g fieldType shouldBeNull) := by
  refine ⟨rfl, rfl, byteOfRem_val _, ⟨?_, ?_⟩, ⟨by decide, by decide, by decide, by decide⟩,
    fun _ _ => rfl⟩
  · omega
  · omega

/-- C18: the invariant that an invalid value carries no payload (Valid = false implies
`len(Bytes) = 0`).  It holds for the zero value and for every result of `BytesFrom`
and `BytesFromPtr`; UnmarshalJSON preserves it, on success and on error; it holds after
UnmarshalText, SetValid, Scan (on success and on error) and Randomize from any prior
state; hence every value reachable without `NewBytes` or field writes satisfies it and,
when its Valid is false, MarshalJSON emits `null` for it; and `NewBytes` can break
it. -/
theorem C18_no_payload_when_invalid :
    NoPayloadWhenInvalid zeroBytes ∧
    (∀ x : Slice, NoPayloadWhenInvalid (BytesFrom x)) ∧
    (∀ p : Option Slice, NoPayloadWhenInvalid (BytesFromPtr p)) ∧
    (∀ (J : JSONLib) (b : Bytes) (data : Slice),
      NoPayloadWhenInvalid b → NoPayloadWhenInvalid (UnmarshalJSON J b data).1) ∧
    (∀ (b : Bytes) (text : Slice), NoPayloadWhenInvalid (UnmarshalText b text).1) ∧
    (∀ (b : Bytes) (n : Slice), NoPayloadWhenInvalid (SetValid b n)) ∧
    (∀ (conv : Converter) (b : Bytes) (v : DriverValue),
      NoPayloadWhenInvalid (Scan conv b v).1) ∧
    (∀ (G : Type) (nextInt : G → Int × G) (g : G) (fieldType : String)
      (shouldBeNull : Bool) (b : Bytes),
      NoPayloadWhenInvalid (Randomize b nextInt g fieldType shouldBeNull).1) ∧
    (∀ b : Bytes, Reachable b →
      NoPayloadWhenInvalid b ∧
      (b.Valid = false → ∀ J : JSONLib, MarshalJSON J b = Except.ok NullBytes)) ∧
    ¬ NoPayloadWhenInvalid (NewBytes (Slice.mk [1]) false true) := by
  refine ⟨fun _ => rfl, fun x => noPayload_of_reachable _ (Reachable.bytesFrom x),
    fun p => noPayload_of_reachable _ (Reachable.bytesFromPtr p),
    noPayload_unmarshalJSON, noPayload_unmarshalText, ?_, noPayload_scan,
    fun G nextInt g ft sbn b => noPayload_randomize b nextInt g ft sbn, ?_, ?_⟩
  · intro b n h; simp [SetValid] at h
  · intro b hr
    have hinv := noPayload_of_reachable b hr
    refine ⟨hinv, ?_⟩
    intro hv J
    simp [MarshalJSON, hinv hv]
  · intro h
    have := h rfl
    simp [NewBytes, Slice.len, Slice.elems] at this

/-- C18 at a concrete value: the value obtained from `BytesFrom` of the bytes 1, 2 by
Scan of the database null is reachable, invalid, without payload, and encoded as
`null`. -/
theorem C18_no_payload_when_invalid_witness :
    Reachable (Scan convertAssignRef (BytesFrom (Slice.mk [1, 2])) DriverValue.null).1 ∧
    (Scan convertAssignRef (BytesFrom (Slice.mk [1, 2])) DriverValue.null).1.Valid
      = false ∧
    NoPayloadWhenInvalid
      (Scan convertAssignRef (BytesFrom (Slice.mk [1, 2])) DriverValue.null).1 ∧
    MarshalJSON base64JSON
      (Scan convertAssignRef (BytesFrom (Slice.mk [1, 2])) DriverValue.null).1 =
      Except.ok NullBytes :=
  ⟨Reachable.scan convertAssignRef (BytesFrom (Slice.mk [1, 2])) DriverValue.null
      (Reachable.bytesFrom (Slice.mk [1, 2])),
    rfl,
    (C18_no_payload_when_invalid.2.2.2.2.2.2.2.2.1
      (Scan convertAssignRef (BytesFrom (Slice.mk [1, 2])) DriverValue.null).1
      (Reachable.scan convertAssignRef (BytesFrom (Slice.mk [1, 2])) DriverValue.null
        (Reachable.bytesFrom (Slice.mk [1, 2])))).1,
    (C18_no_payload_when_invalid.2.2.2.2.2.2.2.2.1
      (Scan convertAssignRef (BytesFrom (Slice.mk [1, 2])) DriverValue.null).1
      (Reachable.scan convertAssignRef (BytesFrom (Slice.mk [1, 2])) DriverValue.null
        (Reachable.bytesFrom (Slice.mk [1, 2])))).2 rfl base64JSON⟩

/-- C19, the claim fails in its last clause: the token `"AQID"` is not the four bytes
`null`, the decoder accepts it, and UnmarshalJSON leaves Valid = true with the three
bytes 1, 2, 3 as payload, which is not an empty payload. -/
theorem C19_counterexample :
    Slice.mk [34, 65, 81, 73, 68, 34] ≠ NullBytes ∧
    base64JSON.Unmarshal (Slice.mk [34, 65, 81, 73, 68, 34]) =
      Except.ok (Slice.mk [1, 2, 3]) ∧
    UnmarshalJSON base64JSON zeroBytes (Slice.mk [34, 65, 81, 73, 68, 34]) =
      ({ Bytes := Slice.mk [1, 2, 3], Valid := true, set := true }, none) ∧
    (UnmarshalJSON base64JSON zeroBytes (Slice.mk [34, 65, 81, 73, 68, 34])).1.Bytes.len
      = 3 :=
  ⟨by decide, rfl, rfl, rfl⟩

/-- C19 as amended: UnmarshalJSON recognises null by exact byte equality only.  For
every JSON collaborator, every prior state and every input on which it returns no
error, the resulting Valid is false exactly when the input is the four bytes `null`;
any other such input was accepted by the decoder and leaves Valid = true, set = true
and Bytes = the decoded slice, so the payload is empty only when the decoded slice is.
With the reference decoder, `null` between two spaces decodes to the nil slice and
leaves Valid = true with a nil payload, and the empty string token leaves Valid = true
with an empty payload. -/
theorem C19_null_by_exact_bytes (J : JSONLib) (b : Bytes) (data : Slice)
    (hok : (UnmarshalJSON J b data).2 = none) :
    ((UnmarshalJSON J b data).1.Valid = false ↔ data = NullBytes) ∧
    (data ≠ NullBytes → ∃ bv, J.Unmarshal data = Except.ok bv ∧
      UnmarshalJSON J b data = ({ Bytes := bv, Valid := true, set := true }, none)) ∧
    (base64JSON.Unmarshal (Slice.mk [32, 110, 117, 108, 108, 32]) = Except.ok Slice.nil ∧
      UnmarshalJSON base64JSON b (Slice.mk [32, 110, 117, 108, 108, 32]) =
        ({ Bytes := Slice.nil, Valid := true, set := true }, none)) ∧
    UnmarshalJSON base64JSON b (Slice.mk [34, 34]) =
      ({ Bytes := Slice.mk [], Valid := true, set := true }, none) := by
  refine ⟨?_, ?_, ⟨rfl, rfl⟩, rfl⟩
  · by_cases hd : data = NullBytes
    · subst hd; simp [UnmarshalJSON, bytesEqual]
    · have hne : bytesEqual data NullBytes = false := by
        cases hb : bytesEqual data NullBytes
        · rfl
        · exact absurd ((bytesEqual_NullBytes_iff data).1 hb) hd
      cases hu : J.Unmarshal data with
      | error err => simp [UnmarshalJSON, hne, hu] at hok
      | ok bv => simp [UnmarshalJSON, hne, hu, hd]
  · intro hd
    have hne : bytesEqual data NullBytes = false := by
      cases hb : bytesEqual data NullBytes
      · rfl
      · exact absurd ((bytesEqual_NullBytes_iff data).1 hb) hd
    cases hu : J.Unmarshal data with
    | error err => simp [UnmarshalJSON, hne, hu] at hok
    | ok bv => exact ⟨bv, rfl, by simp [UnmarshalJSON, hne, hu]⟩

/-- C19 through the reference decoder: `null` after a line feed is accepted and leaves
a value that was null valid, with a nil payload; the exact `null` leaves it invalid. -/
theorem C19_null_by_exact_bytes_witness :
    (UnmarshalJSON base64JSON { Bytes := Slice.nil, Valid := false, set := false }
      (Slice.mk [10, 110, 117, 108, 108])).2 = none ∧
    Slice.mk [10, 110, 117, 108, 108] ≠ NullBytes ∧
    (∃ bv, base64JSON.Unmarshal (Slice.mk [10, 110, 117, 108, 108]) = Except.ok bv ∧
      UnmarshalJSON base64JSON { Bytes := Slice.nil, Valid := false, set := false }
        (Slice.mk [10, 110, 117, 108, 108]) =
        ({ Bytes := bv, Valid := true, set := true }, none)) ∧
    ((UnmarshalJSON base64JSON { Bytes := Slice.nil, Valid := false, set := false }
      NullBytes).1.Valid = false ↔ NullBytes = NullBytes) :=
  ⟨rfl, by decide,
    (C19_null_by_exact_bytes base64JSON
      { Bytes := Slice.nil, Valid := false, set := false }
      (Slice.mk [10, 110, 117, 108, 108]) rfl).2.1 (by decide),
    (C19_null_by_exact_bytes base64JSON
      { Bytes := Slice.nil, Valid := false, set := false } NullBytes rfl).1⟩

/-- C20: text encode-then-decode loses exactly the empty payloads.  For every Bytes `b`
and every prior state of the target, MarshalText of `b` returns some text without error
and UnmarshalText of that text returns no error and leaves set = true; the result has
Valid = true exactly when `b.Valid = true` and `len(b.Bytes) > 0`, and then its payload
is `b.Bytes`; otherwise, for a valid `b` with a payload of length zero as for an
invalid `b`, it has Valid = false and a nil payload. -/
theorem C20_text_encode_decode (b prior : Bytes) :
    ∃ out, MarshalText b = Except.ok out ∧
      (UnmarshalText prior out).2 = none ∧
      (UnmarshalText prior out).1.set = true ∧
      ((UnmarshalText prior out).1.Valid = true ↔ (b.Valid = true ∧ 0 < b.Bytes.len)) ∧
      ((b.Valid = true ∧ 0 < b.Bytes.len) →
        (UnmarshalText prior out).1 = { Bytes := b.Bytes, Valid := true, set := true }) ∧
      (¬ (b.Valid = true ∧ 0 < b.Bytes.len) →
        (UnmarshalText prior out).1 =
          { Bytes := Slice.nil, Valid := false, set := true }) := by
  obtain ⟨p, v, s⟩ := b
  obtain ⟨q, w, r⟩ := prior
  cases v
  · refine ⟨Slice.nil, rfl, rfl, rfl, ?_, ?_, ?_⟩
    · simp [UnmarshalText, Slice.len, Slice.elems]
    · intro h; simp at h
    · intro _; rfl
  · cases p with
    | nil =>
      refine ⟨Slice.nil, rfl, rfl, rfl, ?_, ?_, ?_⟩
      · simp [UnmarshalText, Slice.len, Slice.elems]
      · intro h; simp [Slice.len, Slice.elems] at h
      · intro _; rfl
    | mk l =>
      cases l with
      | nil =>
        refine ⟨Slice.mk [], rfl, rfl, rfl, ?_, ?_, ?_⟩
        · simp [UnmarshalText, Slice.len, Slice.elems]
        · intro h; simp [Slice.len, Slice.elems] at h
        · intro _; rfl
      | cons a t =>
        refine ⟨Slice.mk (a :: t), rfl, rfl, rfl, ?_, ?_, ?_⟩
        · simp [UnmarshalText, Slice.len, Slice.elems]
        · intro _; cases q <;> rfl
        · intro h; simp [Slice.len, Slice.elems] at h

/-- C20 at concrete values: a valid value holding the bytes 1, 2 comes back over a
target that held other bytes, and a valid value with an empty payload comes back
invalid with a nil payload. -/
theorem C20_text_encode_decode_witness :
    (∃ out, MarshalText (NewBytes (Slice.mk [1, 2]) true false) = Except.ok out ∧
      (true = true ∧ 0 < (Slice.mk [1, 2]).len) ∧
      (UnmarshalText { Bytes := Slice.mk [9, 9, 9], Valid := false, set := false } out).1 =
        { Bytes := Slice.mk [1, 2], Valid := true, set := true }) ∧
    (∃ out, MarshalText (NewBytes (Slice.mk []) true false) = Except.ok out ∧
      ¬ (true = true ∧ 0 < (Slice.mk []).len) ∧
      (UnmarshalText { Bytes := Slice.mk [9, 9, 9], Valid := true, set := false } out).1 =
        { Bytes := Slice.nil, Valid := false, set := true }) :=
  ⟨(C20_text_encode_decode (NewBytes (Slice.mk [1, 2]) true false)
      { Bytes := Slice.mk [9, 9, 9], Valid := false, set := false }).elim
    (fun out h => ⟨out, h.1, ⟨rfl, by decide⟩, h.2.2.2.2.1 ⟨rfl, by decide⟩⟩),
   (C20_text_encode_decode (NewBytes (Slice.mk []) true false)
      { Bytes := Slice.mk [9, 9, 9], Valid := true, set := false }).elim
    (fun out h => ⟨out, h.1, by decide, h.2.2.2.2.2 (by decide)⟩)⟩

end Null
